import Mathlib

/-!
Shallow embedding of the velarixdb storage engine (Rust) for specification
checking.  The embedding covers:

* the value log (`src/vlog/v_log.rs`): entry serialization, `append`, and the
  point read `get`;
* the SSTable point-read path (`src/sstable/sst.rs`, `SSTable::get`);
* the size-tiered bucket coordinator (`src/compaction/bucket_coordinator.rs`):
  `insert_to_appropriate_bucket`, `extract_buckets_to_compact`,
  `delete_sstables`;
* the flusher entry point (`src/flusher/flusher.rs`, `Flusher::flush`);
* the garbage-collector tail-visibility contract (modelled from the spec,
  corroborated by `src/tests/gc_test.rs`).

Files are modelled as lists of byte values (`List Nat`, each element < 256
whenever produced by a writer in this file).  Machine integers are `Nat` with
explicit `% 2 ^ w` at the points where the Rust code truncates (`as u32`,
`to_le_bytes`).  External collaborators (the filesystem, the async write) are
passed in explicitly as environment parameters.
-/

namespace Velarix

/-! ### Little-endian byte encoding helpers

`natToLE w n` is the `w`-byte little-endian encoding of `n` (the semantics of
Rust's `to_le_bytes` after an `as uN` truncation); `fromLE` is the semantics of
`uN::from_le_bytes` on a buffer of bytes. -/

def natToLE : Nat → Nat → List Nat
  | 0, _ => []
  | w + 1, n => n % 256 :: natToLE w (n / 256)

def fromLE : List Nat → Nat
  | [] => 0
  | b :: rest => b + 256 * fromLE rest

/-! ### Value log (`src/vlog/v_log.rs`)

`ValueLogEntry::serialize` writes, in order: `key_len` as `u32` little-endian,
`value_len` as `u32` little-endian, `created_at.timestamp_millis()` as `i64`
little-endian, `is_tombstone` as one byte, then the raw key bytes and the raw
value bytes.  `ValueLog::append` serializes the entry, records the current
`size` counter as the returned offset, hands the bytes to the asynchronous
file write **and discards that write's result** (`let _ = ... write_all`),
then bumps `size` by the serialized length and returns `Ok(last_offset)`.

The outcome of the underlying file write is an external event; it enters the
model as the `writeOk` parameter: the file content grows only when the write
succeeded, while the code's control flow never looks at it. -/

/-- Serialization of an `i64` timestamp: the millisecond count reduced into
`[0, 2^64)` (two's complement) and laid out as 8 little-endian bytes. -/
def i64ToLE (t : Int) : List Nat := natToLE 8 (t.emod (2 ^ 64)).toNat

structure ValueLog where
  file : List Nat
  head_offset : Nat
  tail_offset : Nat
  size : Nat
deriving Repr, DecidableEq

inductive VLogError where
  | ioError
deriving Repr, DecidableEq

def vlogSerialize (key value : List Nat) (created_at : Int) (is_tombstone : Bool) :
    List Nat :=
  natToLE 4 key.length ++ natToLE 4 value.length ++ i64ToLE created_at ++
    [if is_tombstone then 1 else 0] ++ key ++ value

def ValueLog.append (writeOk : Bool) (v : ValueLog) (key value : List Nat)
    (created_at : Int) (is_tombstone : Bool) : Except VLogError (Nat × ValueLog) :=
  let serialized_data := vlogSerialize key value created_at is_tombstone
  let last_offset := v.size
  -- `let _ = data_file.file.node.write_all(&serialized_data).await;`
  let file := if writeOk then v.file ++ serialized_data else v.file
  Except.ok (last_offset, { v with file := file, size := v.size + serialized_data.length })

/-- Modelled from the spec: the body of `VLogFileNode::get` lives in the `fs`
module, which is not among the provided sources.  Per section 4.4, `get`
seeks to `start_offset`, reads the header (`key_len`, `value_len`,
`created_at`, `is_tombstone` as laid out in section 3), reads key and value,
and returns `(value, is_tombstone)`; a file too short for the record is a
read failure (`none`). -/
def vlogGet (file : List Nat) (start_offset : Nat) : Option (List Nat × Bool) :=
  let r := file.drop start_offset
  if 17 ≤ r.length then
    let klen := fromLE (r.take 4)
    let vlen := fromLE ((r.drop 4).take 4)
    let tomb := (r.drop 16).headD 0 = 1
    let body := r.drop 17
    if klen + vlen ≤ body.length then
      some ((body.drop klen).take vlen, tomb)
    else
      none
  else
    none

/-! Segment-peeling helpers for parsing a concatenation of fixed-width fields. -/

/-! ### SSTable point read (`src/sstable/sst.rs`, `SSTable::get`)

The Rust code seeks to `start_offset`, then loops: read 4 bytes of key
length (0 bytes read at this point is clean EOF, `Ok(None)`), read the key,
the 4-byte value offset, the 8-byte creation time, and the 1-byte tombstone
flag (a 0-byte read at any of these four points is an `UnexpectedEOF`
error), and returns `Some((value_offset, created_at, is_tombstone))` once
the key read equals the searched key; otherwise it loops to the next record.
There is no other exit from the loop.

`read` into a zero-initialised buffer of `n` bytes consumes
`min n remaining` bytes and leaves the rest of the buffer zero; the code
only inspects whether the count is zero, mirroring the Rust
`bytes_read == 0` checks. -/

def readCount (n : Nat) (l : List Nat) : Nat := min n l.length

def readBuf (n : Nat) (l : List Nat) : List Nat :=
  l.take n ++ List.replicate (n - l.length) 0

inductive SSTReadResult where
  | found (valOffset createdAt : Nat) (isTombstone : Bool)
  | notFound
  | unexpectedEOF
deriving Repr, DecidableEq

def sstScan (key : List Nat) (rest : List Nat) : SSTReadResult :=
  if h1 : readCount 4 rest = 0 then .notFound
  else
    let keyLen := fromLE (readBuf 4 rest)
    let r1 := rest.drop (readCount 4 rest)
    if h2 : readCount keyLen r1 = 0 then .unexpectedEOF
    else
      let keyBuf := readBuf keyLen r1
      let r2 := r1.drop (readCount keyLen r1)
      if h3 : readCount 4 r2 = 0 then .unexpectedEOF
      else
        let voff := fromLE (readBuf 4 r2)
        let r3 := r2.drop (readCount 4 r2)
        if h4 : readCount 8 r3 = 0 then .unexpectedEOF
        else
          let cat := fromLE (readBuf 8 r3)
          let r4 := r3.drop (readCount 8 r3)
          if h5 : readCount 1 r4 = 0 then .unexpectedEOF
          else
            let tomb := (readBuf 1 r4).headD 0 = 1
            let r5 := r4.drop (readCount 1 r4)
            if keyBuf = key then .found voff cat tomb
            else sstScan key r5
termination_by rest.length
decreasing_by
  simp only [readCount, List.length_drop] at h1 ⊢
  omega

/-- The point-read entry function: seek to `start_offset` and scan. -/
def sstGet (file : List Nat) (start_offset : Nat) (key : List Nat) : SSTReadResult :=
  sstScan key (file.drop start_offset)

/-- An SSTable data-file record as parsed by the read path: key length,
key bytes, value offset, creation time, tombstone flag. -/
structure SSTEntry where
  key : List Nat
  valOffset : Nat
  createdAt : Nat
  isTombstone : Bool
deriving Repr, DecidableEq

/-- On-disk encoding of one record, following the layout the read path in
`SSTable::get` parses (and section 4.1 of the spec): `key_len:u32` LE, key
bytes, `value_offset:u32` LE, `created_at:u64` LE, `is_tombstone:u8`. -/
def encodeSSTEntry (e : SSTEntry) : List Nat :=
  natToLE 4 e.key.length ++ e.key ++ natToLE 4 e.valOffset ++
    natToLE 8 e.createdAt ++ [if e.isTombstone then 1 else 0]

def encodeSSTEntries (es : List SSTEntry) : List Nat :=
  (es.map encodeSSTEntry).flatten

/-- Well-formedness of a record for the scan lemmas: a nonempty key whose
length fits in a `u32`. -/
def sstEntryWF (e : SSTEntry) : Prop := 0 < e.key.length ∧ e.key.length < 2 ^ 32

instance (e : SSTEntry) : Decidable (sstEntryWF e) :=
  inferInstanceAs (Decidable (0 < e.key.length ∧ e.key.length < 2 ^ 32))

/-! ### Bucket coordinator (`src/compaction/bucket_coordinator.rs`)

Constants: `BUCKET_LOW = 0.5`, `BUCKET_HIGH = 1.5`, `MIN_SSTABLE_SIZE = 32`,
`MIN_TRESHOLD = 4`, `MAX_TRESHOLD = 32` (source spelling).

File paths are opaque identifiers (`Nat`); the filesystem enters as an
environment: `fsize p` is `fs::metadata(p).unwrap().len()` and `newPath` is
the path of the SSTable file `SSTable::write_to_file` produces for this
insert (the write is modelled as succeeding; the `Err` branches of the Rust
code propagate I/O failures of that external call and are not taken here).
The `HashMap<Uuid, Bucket>` is modelled as a list of buckets; the Rust
iteration order over the hash map is arbitrary, and the list order stands
for whichever order the iteration took. -/

def MIN_TRESHOLD : Nat := 4
def MAX_TRESHOLD : Nat := 32

structure SSTablePath where
  file_path : Nat
  hotness : Nat
deriving Repr, DecidableEq

structure Bucket where
  id : Nat
  avarage_size : Nat
  sstables : List SSTablePath
deriving Repr, DecidableEq

/-- The bucket-match condition of `insert_to_appropriate_bucket`:
`(avg as f64 * 0.5 < size as f64 && size < (avg as f64 * 1.5) as usize) ||
 (size < MIN_SSTABLE_SIZE && avg < MIN_SSTABLE_SIZE)`.
For the sizes in range the `f64` arithmetic is exact: `avg * 0.5 < size` is
`avg < 2 * size`, and `(avg * 1.5) as usize` truncates to `3 * avg / 2`
(floor), giving `size < 3 * avg / 2` in natural-number division. -/
def matchesBucket (avg msize : Nat) : Bool :=
  (decide (avg < 2 * msize) && decide (msize < 3 * avg / 2)) ||
    (decide (msize < 32) && decide (avg < 32))

structure InsertEnv where
  newPath : Nat
  newBucketId : Nat
  fsize : Nat → Nat

def bumpHotness (s : SSTablePath) : SSTablePath := { s with hotness := s.hotness + 1 }

/-- Recomputed `avarage_size`: sum of the on-disk data-file sizes of the
members, integer-divided by the member count. -/
def recomputedAvg (env : InsertEnv) (ssts : List SSTablePath) : Nat :=
  (ssts.map (fun s => env.fsize s.file_path)).sum / ssts.length

/-- The bucket created when no existing bucket matches: a fresh
uuid-directory bucket seeded with this SSTable at hotness 1, its average
set to the new file's on-disk size. -/
def freshBucket (env : InsertEnv) : Bucket :=
  { id := env.newBucketId, avarage_size := env.fsize env.newPath,
    sstables := [{ file_path := env.newPath, hotness := 1 }] }

/-- `BucketMap::insert_to_appropriate_bucket`: walk the buckets; on the
first match, write the SSTable into the bucket's directory, push an
`SSTablePath` carrying the given hotness, bump the hotness of every element
of the (just extended) list, recompute the average from on-disk sizes, and
return the pushed path (the returned clone was taken before the bump).  If
no bucket matches, create a fresh bucket seeded at hotness 1. -/
def insertToAppropriateBucket (env : InsertEnv) (msize hotness : Nat) :
    List Bucket → List Bucket × SSTablePath
  | [] => ([freshBucket env], { file_path := env.newPath, hotness := 1 })
  | b :: rest =>
      if matchesBucket b.avarage_size msize then
        let ssts := (b.sstables ++
          [({ file_path := env.newPath, hotness := hotness } : SSTablePath)]).map bumpHotness
        ({ b with sstables := ssts, avarage_size := recomputedAvg env ssts } :: rest,
          { file_path := env.newPath, hotness := hotness })
      else
        let rec2 := insertToAppropriateBucket env msize hotness rest
        (b :: rec2.1, rec2.2)

/-- `BucketMap::extract_buckets_to_compact`: keep the buckets with at least
`MIN_TRESHOLD` sstables; for each, push `(id, sstables[0..MAX_TRESHOLD])`
into the delete list when `len > MAX_TRESHOLD`, and push a copy of the
bucket restricted to `sstables[0..MAX_TRESHOLD]` into the compaction list.
The Rust slice `sstables[0..MAX_TRESHOLD]` panics when the bucket holds
fewer than `MAX_TRESHOLD` sstables; the panic is modelled as `none`. -/
def extractBucketsToCompact (bm : List Bucket) :
    Option (List Bucket × List (Nat × List SSTablePath)) :=
  (bm.filter (fun b => MIN_TRESHOLD ≤ b.sstables.length)).foldlM
    (fun acc b =>
      if MAX_TRESHOLD ≤ b.sstables.length then
        some (acc.1 ++ [{ b with sstables := b.sstables.take MAX_TRESHOLD }],
          acc.2 ++
            (if MAX_TRESHOLD < b.sstables.length then
              [(b.id, b.sstables.take MAX_TRESHOLD)]
            else []))
      else none)
    ([], [])

/-- Replace the bucket stored under `id` (`HashMap::insert` on an existing
key). -/
def replaceBucket (bm : List Bucket) (id : Nat) (b2 : Bucket) : List Bucket :=
  bm.map (fun b => if b.id = id then b2 else b)

/-- `BucketMap::delete_sstables`: for each `(bucket_id, paths)` pair, fetch
the bucket (`unwrap`: `none` when missing) and overwrite it with a copy
whose sstables are `bucket.sstables[0..MAX_TRESHOLD]` (a slice that panics,
modelled as `none`, when the bucket holds fewer); then unlink every listed
data file (unlink failures are logged and ignored, so the paths are removed
from the model disk unconditionally).  Returns the updated map and the list
of paths removed from disk. -/
def deleteSstables (bm : List Bucket) (dels : List (Nat × List SSTablePath)) :
    Option (List Bucket × List Nat) := do
  let bm2 ← dels.foldlM
    (fun (acc : List Bucket) (del : Nat × List SSTablePath) => do
      let b ← acc.find? (fun b => b.id = del.1)
      if MAX_TRESHOLD ≤ b.sstables.length then
        pure (replaceBucket acc del.1 { b with sstables := b.sstables.take MAX_TRESHOLD })
      else
        none)
    bm
  pure (bm2, dels.flatMap (fun del => del.2.map SSTablePath.file_path))

/-- The bucket invariant of spec section 3: each member's on-disk size lies
strictly between `avg * BUCKET_LOW` and `avg * BUCKET_HIGH` (exactly:
`avg < 2 * size` and `2 * size < 3 * avg`), or both the size and the
average are below `MIN_SSTABLE_SIZE`. -/
def sstInBounds (fsize : Nat → Nat) (avg : Nat) (s : SSTablePath) : Bool :=
  (decide (avg < 2 * fsize s.file_path) && decide (2 * fsize s.file_path < 3 * avg)) ||
    (decide (fsize s.file_path < 32) && decide (avg < 32))

def bucketInvariant (fsize : Nat → Nat) (b : Bucket) : Bool :=
  b.sstables.all (sstInBounds fsize b.avarage_size)

/-! ### Garbage-collector tail visibility

Modelled from the spec: the garbage collector implementation
(`gc::garbage_collector`, referenced by `src/tests/gc_test.rs`) is not among
the provided sources.  Per section 4.5, one GC cycle reads a chunk of entries
from the tail (`read_chunk_to_garbage_collect`: decode consecutive entries
until the cumulative bytes read reach `bytes_to_collect`, reading the last
entry in full even when it overshoots), and publishes its tail advance
together with `gc_updated_entries`; the engine's observed vlog tail only
moves when a subsequent write operation merges the published updates.  The
tests `datastore_gc_test_free_before_synchronization` and
`datastore_gc_test_tail_shifted_to_correct_position` assert exactly this
contract. -/

/-- Chunked read from the tail: returns the consumed byte count and the
remaining entry sizes.  Entries are consumed while the budget is positive;
the entry that crosses the budget is still consumed whole. -/
def readChunk : List Nat → Nat → Nat × List Nat
  | [], _ => (0, [])
  | sz :: rest, budget =>
      if budget = 0 then (0, sz :: rest)
      else
        let r := readChunk rest (budget - min budget sz)
        (sz + r.1, r.2)

structure GCEngineState where
  observedTail : Nat
  pendingTailAdvance : Nat
  entrySizes : List Nat
deriving Repr, DecidableEq

/-- Modelled from the spec: one GC cycle consumes a chunk from the tail and
publishes the advance in `gc_updated_entries`; the observed tail offset is
untouched. -/
def gcCycle (budget : Nat) (s : GCEngineState) : GCEngineState :=
  let r := readChunk s.entrySizes budget
  { s with pendingTailAdvance := s.pendingTailAdvance + r.1, entrySizes := r.2 }

/-- Modelled from the spec: a write operation merges the published GC
updates into the live memtable and only then moves the observed tail. -/
def writeOp (s : GCEngineState) : GCEngineState :=
  { s with
    observedTail := s.observedTail + s.pendingTailAdvance,
    pendingTailAdvance := 0 }

/-! ### Flusher (`src/flusher/flusher.rs`)

`Flusher::flush` first rejects an empty memtable with
`FailedToInsertToBucket("Cannot flush an empty table")` before reading any
of the shared structures; on a non-empty table it snapshots the boundary
keys, inserts into the appropriate bucket with hotness 1, registers the key
range, pushes the bloom filter bound to the new SSTable path, and re-sorts
the bloom-filter list by hotness descending. -/

structure InMemoryTable where
  entries : List (List Nat × (Nat × Nat × Bool))
  size : Nat
deriving Repr, DecidableEq

structure KeyRangeEntry where
  data_file_path : Nat
  smallest : List Nat
  biggest : List Nat
  sstable : SSTablePath
deriving Repr, DecidableEq

structure BloomFilterEntry where
  sstable_path : SSTablePath
deriving Repr, DecidableEq

structure FlusherState where
  read_only_memtable : List Nat
  bucket_map : List Bucket
  bloom_filters : List BloomFilterEntry
  key_range : List KeyRangeEntry
deriving Repr, DecidableEq

inductive FlushError where
  | failedToInsertToBucket
  | biggestKeyIndexError
  | lowestKeyIndexError
deriving Repr, DecidableEq

/-- Modelled from the spec: the memtable collaborator's `find_smallest_key`
returns the boundary key of the ordered index, or an error when empty
(sections 1 and 6); `entries` is the ordered index, so the smallest key is
the first one. -/
def findSmallestKey (t : InMemoryTable) : Except FlushError (List Nat) :=
  match t.entries.head? with
  | some e => Except.ok e.1
  | none => Except.error FlushError.lowestKeyIndexError

/-- Modelled from the spec: `find_biggest_key` is the last key of the
ordered index, or an error when empty. -/
def findBiggestKey (t : InMemoryTable) : Except FlushError (List Nat) :=
  match t.entries.getLast? with
  | some e => Except.ok e.1
  | none => Except.error FlushError.biggestKeyIndexError

def hotnessDesc (a b : BloomFilterEntry) : Bool :=
  b.sstable_path.hotness ≤ a.sstable_path.hotness

/-- `Flusher::flush` as a pure state transition: the first component is the
resulting shared state, the second the returned error if any.  The
empty-table rejection happens before anything else is read or written, so
the input state is returned untouched on that path. -/
def flush (env : InsertEnv) (s : FlusherState) (table : InMemoryTable) :
    FlusherState × Option FlushError :=
  if table.entries.isEmpty then
    (s, some FlushError.failedToInsertToBucket)
  else
    match findBiggestKey table, findSmallestKey table with
    | Except.ok big, Except.ok small =>
        let ins := insertToAppropriateBucket env table.size 1 s.bucket_map
        ({ s with
            bucket_map := ins.1,
            key_range :=
              { data_file_path := ins.2.file_path, smallest := small,
                biggest := big, sstable := ins.2 } :: s.key_range,
            bloom_filters :=
              (s.bloom_filters ++
                [({ sstable_path := ins.2 } : BloomFilterEntry)]).mergeSort hotnessDesc },
          none)
    | Except.error e, _ => (s, some e)
    | _, Except.error e => (s, some e)

/-! ### Concrete inputs for counterexamples and witnesses -/

/-- A bucket holding 33 sstables (paths 0..32), as left behind by inserts
once compaction is due. -/
def c1Paths : List SSTablePath :=
  (List.range 33).map (fun i => ({ file_path := i, hotness := 0 } : SSTablePath))

def c1Bm : List Bucket := [{ id := 5, avarage_size := 40, sstables := c1Paths }]

/-- The delete list `extract_buckets_to_compact` produces for `c1Bm`: the
first `MAX_TRESHOLD` sstables of bucket 5 — the ones handed to compaction. -/
def c1Dels : List (Nat × List SSTablePath) := [(5, c1Paths.take 32)]

/-- A bucket at exactly `MIN_TRESHOLD` sstables: due for compaction per the
spec, yet below the `[0..MAX_TRESHOLD]` slice bound. -/
def c2Bm : List Bucket :=
  [{ id := 1, avarage_size := 10,
     sstables := (List.range 4).map (fun i => ({ file_path := i, hotness := 0 } : SSTablePath)) }]

def c3Env : InsertEnv := { newPath := 7, newBucketId := 9, fsize := fun _ => 100 }

def c3Bm : List Bucket :=
  [{ id := 0, avarage_size := 100, sstables := [{ file_path := 3, hotness := 4 }] }]

/-- On-disk sizes for the C4 run: the seed SSTable (path 0) is 100 bytes,
every later one 60 bytes. -/
def c4Fsize : Nat → Nat := fun p => if p = 0 then 100 else 60

def c4Env (p : Nat) : InsertEnv := { newPath := p, newBucketId := 0, fsize := c4Fsize }

/-- Six inserts from the empty bucket map: a 100-byte table, then five
60-byte tables.  Every insert matches the single bucket, and the running
average drifts from 100 down to 66, leaving the first member (size 100)
outside `avg * BUCKET_HIGH = 99`. -/
def c4Final : List Bucket :=
  (insertToAppropriateBucket (c4Env 5) 60 1
    (insertToAppropriateBucket (c4Env 4) 60 1
      (insertToAppropriateBucket (c4Env 3) 60 1
        (insertToAppropriateBucket (c4Env 2) 60 1
          (insertToAppropriateBucket (c4Env 1) 60 1
            (insertToAppropriateBucket (c4Env 0) 100 1 []).1).1).1).1).1).1

def c7e1 : SSTEntry := { key := [98], valOffset := 5, createdAt := 7, isTombstone := false }

def c7e2 : SSTEntry := { key := [97], valOffset := 9, createdAt := 11, isTombstone := false }

/-- A data file whose first record carries key `[98]` and whose second
carries the smaller key `[97]`. -/
def c7File : List Nat := encodeSSTEntries [c7e1, c7e2]

def c6V : ValueLog := { file := [], head_offset := 0, tail_offset := 0, size := 0 }

def c6V2 : ValueLog :=
  { file := vlogSerialize [1] [2, 3] 42 false, head_offset := 0, tail_offset := 0, size := 20 }

def c8S : GCEngineState := { observedTail := 10, pendingTailAdvance := 0, entrySizes := [30, 30, 30] }

def c9Env : InsertEnv := { newPath := 0, newBucketId := 0, fsize := fun _ => 0 }

def c9State : FlusherState :=
  { read_only_memtable := [4], bucket_map := [], bloom_filters := [], key_range := [] }

/-! ## Helper lemmas -/

theorem natToLE_length (w n : Nat) : (natToLE w n).length = w := by
  induction w generalizing n with
  | zero => rfl
  | succ k ih => simp [natToLE, ih]

theorem fromLE_natToLE (w n : Nat) : fromLE (natToLE w n) = n % 256 ^ w := by
  induction w generalizing n with
  | zero => simp [natToLE, fromLE, Nat.mod_one]
  | succ k ih =>
      simp only [natToLE, fromLE, ih]
      have hpow : (256:Nat) ^ (k + 1) = 256 * 256 ^ k := by ring
      rw [hpow, Nat.mod_mul]

theorem vlogSerialize_length (key value : List Nat) (t : Int) (b : Bool) :
    (vlogSerialize key value t b).length = 16 + key.length + value.length + 1 := by
  simp [vlogSerialize, i64ToLE, natToLE_length]
  omega

theorem take_len_append {α : Type} (a rest : List α) (n : Nat) (h : a.length = n) :
    (a ++ rest).take n = a := by
  subst h; exact List.take_left a rest

theorem drop_len_append {α : Type} (a rest : List α) (n : Nat) (h : a.length = n) :
    (a ++ rest).drop n = rest := by
  subst h; exact List.drop_left a rest

/-- Round trip through the value log file: appending an entry at the current
end of the file and reading back at the returned offset recovers the value
and the tombstone flag.  Requires the `size` counter to agree with the file
length (true of every state reachable by successful appends from `new`) and
the key and value lengths to fit in a `u32`. -/
theorem vlogGet_after_append (v : ValueLog) (key value : List Nat) (t : Int)
    (b : Bool) (hsync : v.size = v.file.length)
    (hk : key.length < 2 ^ 32) (hv : value.length < 2 ^ 32) :
    ∀ off v2, ValueLog.append true v key value t b = Except.ok (off, v2) →
      vlogGet v2.file off = some (value, b) := by
  intro off v2 happ
  have hoff : off = v.size := by
    simp only [ValueLog.append, Except.ok.injEq, Prod.mk.injEq] at happ
    exact happ.1.symm
  have hfile : v2.file = v.file ++ vlogSerialize key value t b := by
    simp only [ValueLog.append, Except.ok.injEq, Prod.mk.injEq, if_true] at happ
    rw [← happ.2]
  set A := natToLE 4 key.length with hA
  set B := natToLE 4 value.length with hB
  set C := i64ToLE t with hC
  set D : List Nat := [if b then 1 else 0] with hD
  have hlenA : A.length = 4 := natToLE_length 4 key.length
  have hlenB : B.length = 4 := natToLE_length 4 value.length
  have hlenC : C.length = 8 := natToLE_length 8 _
  have hlenD : D.length = 1 := rfl
  have hs : vlogSerialize key value t b = A ++ (B ++ (C ++ (D ++ (key ++ value)))) := by
    simp [vlogSerialize, hA, hB, hC, hD]
  have hr : v2.file.drop off = A ++ (B ++ (C ++ (D ++ (key ++ value)))) := by
    rw [hfile, hoff, hsync, List.drop_left, hs]
  have hrlen : (v2.file.drop off).length = 17 + key.length + value.length := by
    rw [hr]; simp [hlenA, hlenB, hlenC, hlenD]; omega
  simp only [vlogGet]
  rw [hrlen, if_pos (by omega)]
  -- key length field
  have htake4 : (v2.file.drop off).take 4 = A := by
    rw [hr]; exact take_len_append A _ 4 hlenA
  -- value length field
  have hdrop4 : (v2.file.drop off).drop 4 = B ++ (C ++ (D ++ (key ++ value))) := by
    rw [hr]; exact drop_len_append A _ 4 hlenA
  have htakeB : ((v2.file.drop off).drop 4).take 4 = B := by
    rw [hdrop4]; exact take_len_append B _ 4 hlenB
  -- tombstone byte at index 16
  have hgrp16 : v2.file.drop off = (A ++ B ++ C) ++ (D ++ (key ++ value)) := by
    rw [hr]; simp [List.append_assoc]
  have hlen16 : (A ++ B ++ C).length = 16 := by simp [hlenA, hlenB, hlenC]
  have hdrop16 : (v2.file.drop off).drop 16 = D ++ (key ++ value) := by
    rw [hgrp16]; exact drop_len_append _ _ 16 hlen16
  -- record body after the 17-byte header
  have hgrp17 : v2.file.drop off = (A ++ B ++ C ++ D) ++ (key ++ value) := by
    rw [hr]; simp [List.append_assoc]
  have hlen17 : (A ++ B ++ C ++ D).length = 17 := by simp [hlenA, hlenB, hlenC, hlenD]
  have hdrop17 : (v2.file.drop off).drop 17 = key ++ value := by
    rw [hgrp17]; exact drop_len_append _ _ 17 hlen17
  rw [htake4, htakeB, hdrop16, hdrop17]
  have hklen : fromLE A = key.length := by
    rw [hA, fromLE_natToLE]; exact Nat.mod_eq_of_lt hk
  have hvlen : fromLE B = value.length := by
    rw [hB, fromLE_natToLE]; exact Nat.mod_eq_of_lt hv
  rw [hklen, hvlen, if_pos (by simp)]
  have hbody : ((key ++ value).drop key.length).take value.length = value := by
    rw [List.drop_left, List.take_length]
  rw [hbody]
  have htomb : (D ++ (key ++ value)).headD 0 = if b then 1 else 0 := by
    rw [hD]; rfl
  rw [htomb]
  cases b <;> simp

theorem readCount_exact (a x : List Nat) (n : Nat) (h : a.length = n) :
    readCount n (a ++ x) = n := by
  simp only [readCount, List.length_append, h]
  omega

theorem readBuf_exact (a x : List Nat) (n : Nat) (h : a.length = n) :
    readBuf n (a ++ x) = a := by
  have hz : n - (a ++ x).length = 0 := by simp [List.length_append, h]
  rw [readBuf, take_len_append a x n h, hz]
  simp

/-- Scanning a well-formed record followed by anything: the searched key is
compared against the record's key after the whole record has been read; on a
mismatch the scan continues right after the record. -/
theorem sstScan_cons (e : SSTEntry) (key tail : List Nat) (hwf : sstEntryWF e) :
    sstScan key (encodeSSTEntry e ++ tail) =
      if e.key = key then
        SSTReadResult.found (e.valOffset % 2 ^ 32) (e.createdAt % 2 ^ 64) e.isTombstone
      else sstScan key tail := by
  obtain ⟨hpos, hlt⟩ := hwf
  set A := natToLE 4 e.key.length with hA
  set B := natToLE 4 e.valOffset with hB
  set C := natToLE 8 e.createdAt with hC
  set D : List Nat := [if e.isTombstone then 1 else 0] with hD
  have hlenA : A.length = 4 := natToLE_length 4 _
  have hlenB : B.length = 4 := natToLE_length 4 _
  have hlenC : C.length = 8 := natToLE_length 8 _
  have hlenD : D.length = 1 := rfl
  have henc : encodeSSTEntry e ++ tail =
      A ++ (e.key ++ (B ++ (C ++ (D ++ tail)))) := by
    simp [encodeSSTEntry, hA, hB, hC, hD, List.append_assoc]
  -- layer 1: the 4-byte key length header
  have hc1 : readCount 4 (A ++ (e.key ++ (B ++ (C ++ (D ++ tail))))) = 4 :=
    readCount_exact A _ 4 hlenA
  have hb1 : readBuf 4 (A ++ (e.key ++ (B ++ (C ++ (D ++ tail))))) = A :=
    readBuf_exact A _ 4 hlenA
  have hd1 : (A ++ (e.key ++ (B ++ (C ++ (D ++ tail))))).drop 4 =
      e.key ++ (B ++ (C ++ (D ++ tail))) :=
    drop_len_append A _ 4 hlenA
  have hklen : fromLE A = e.key.length := by
    rw [hA, fromLE_natToLE]; exact Nat.mod_eq_of_lt hlt
  -- layer 2: the key bytes
  have hc2 : readCount e.key.length (e.key ++ (B ++ (C ++ (D ++ tail)))) =
      e.key.length := readCount_exact e.key _ _ rfl
  have hb2 : readBuf e.key.length (e.key ++ (B ++ (C ++ (D ++ tail)))) = e.key :=
    readBuf_exact e.key _ _ rfl
  have hd2 : (e.key ++ (B ++ (C ++ (D ++ tail)))).drop e.key.length =
      B ++ (C ++ (D ++ tail)) := drop_len_append e.key _ _ rfl
  -- layer 3: the 4-byte value offset
  have hc3 : readCount 4 (B ++ (C ++ (D ++ tail))) = 4 := readCount_exact B _ 4 hlenB
  have hb3 : readBuf 4 (B ++ (C ++ (D ++ tail))) = B := readBuf_exact B _ 4 hlenB
  have hd3 : (B ++ (C ++ (D ++ tail))).drop 4 = C ++ (D ++ tail) :=
    drop_len_append B _ 4 hlenB
  -- layer 4: the 8-byte creation time
  have hc4 : readCount 8 (C ++ (D ++ tail)) = 8 := readCount_exact C _ 8 hlenC
  have hb4 : readBuf 8 (C ++ (D ++ tail)) = C := readBuf_exact C _ 8 hlenC
  have hd4 : (C ++ (D ++ tail)).drop 8 = D ++ tail := drop_len_append C _ 8 hlenC
  -- layer 5: the tombstone byte
  have hc5 : readCount 1 (D ++ tail) = 1 := readCount_exact D _ 1 hlenD
  have hb5 : readBuf 1 (D ++ tail) = D := readBuf_exact D _ 1 hlenD
  have hd5 : (D ++ tail).drop 1 = tail := drop_len_append D _ 1 hlenD
  rw [henc, sstScan]
  rw [dif_neg (by rw [hc1]; omega)]
  simp only [hb1, hklen, hc1, hd1]
  rw [dif_neg (by rw [hc2]; omega)]
  simp only [hb2, hc2, hd2]
  rw [dif_neg (by rw [hc3]; omega)]
  simp only [hb3, hc3, hd3]
  rw [dif_neg (by rw [hc4]; omega)]
  simp only [hb4, hc4, hd4]
  rw [dif_neg (by rw [hc5]; omega)]
  simp only [hb5, hc5, hd5]
  have hvoff : fromLE B = e.valOffset % 2 ^ 32 := by
    rw [hB, fromLE_natToLE]; norm_num
  have hcat : fromLE C = e.createdAt % 2 ^ 64 := by
    rw [hC, fromLE_natToLE]; norm_num
  have htomb : decide (D.headD 0 = 1) = e.isTombstone := by
    cases h : e.isTombstone <;> simp [hD, h]
  rw [hvoff, hcat]
  cases h : e.isTombstone <;> simp [hD, h]

theorem sstScan_nil (key : List Nat) : sstScan key [] = SSTReadResult.notFound := by
  rw [sstScan]
  simp [readCount]

/-- A lone 4-byte key-length header announcing a nonempty key, with the file
ending right after it, makes the next key read return zero bytes: the scan
reports `unexpectedEOF`, not the clean-EOF `notFound`. -/
theorem sstScan_truncated_header (key : List Nat) (m : Nat) (hm : 0 < m % 2 ^ 32) :
    sstScan key (natToLE 4 m) = SSTReadResult.unexpectedEOF := by
  have hlen : (natToLE 4 m).length = 4 := natToLE_length 4 m
  have hc1 : readCount 4 (natToLE 4 m) = 4 := by simp [readCount, hlen]
  have hb1 : readBuf 4 (natToLE 4 m) = natToLE 4 m := by
    simp [readBuf, hlen, List.take_of_length_le]
  have hd1 : (natToLE 4 m).drop 4 = [] := by
    rw [List.drop_eq_nil_iff, hlen]
  rw [sstScan]
  rw [dif_neg (by rw [hc1]; omega)]
  simp only [hb1, hc1, hd1]
  rw [dif_pos]
  rw [fromLE_natToLE]
  simp [readCount]

/-- Scanning a concatenation of well-formed records followed by `suffix`
finds the first record whose key equals the searched key, and otherwise
continues into `suffix`. -/
theorem sstScan_encodeEntries (es : List SSTEntry) (key suffix : List Nat)
    (hwf : ∀ e ∈ es, sstEntryWF e) :
    sstScan key (encodeSSTEntries es ++ suffix) =
      match es.find? (fun e => e.key == key) with
      | some e =>
          SSTReadResult.found (e.valOffset % 2 ^ 32) (e.createdAt % 2 ^ 64) e.isTombstone
      | none => sstScan key suffix := by
  induction es with
  | nil => simp [encodeSSTEntries]
  | cons e rest ih =>
      have hgrp : encodeSSTEntries (e :: rest) ++ suffix =
          encodeSSTEntry e ++ (encodeSSTEntries rest ++ suffix) := by
        simp [encodeSSTEntries, List.append_assoc]
      rw [hgrp, sstScan_cons e key _ (hwf e (by simp))]
      by_cases hk : e.key = key
      · simp [List.find?, hk]
      · rw [if_neg hk, ih (fun x hx => hwf x (by simp [hx]))]
        have : (e.key == key) = false := by simp [hk]
        simp [List.find?, this]

/-- Full characterization of `insert_to_appropriate_bucket` on the model:
either some first-matching bucket receives the SSTable — its old members
all get their hotness bumped, the new member ends up at `hotness + 1`
because the bump runs after the push, the average is recomputed, and the
returned path still carries the un-bumped `hotness` — or no bucket matches
and a fresh singleton bucket at hotness 1 is appended. -/
theorem insertToAppropriateBucket_spec (env : InsertEnv) (msize hotness : Nat)
    (bm : List Bucket) :
    (∃ pre b post, bm = pre ++ b :: post ∧
      (∀ x ∈ pre, matchesBucket x.avarage_size msize = false) ∧
      matchesBucket b.avarage_size msize = true ∧
      insertToAppropriateBucket env msize hotness bm =
        (pre ++
          { b with
            sstables := b.sstables.map bumpHotness ++
              [{ file_path := env.newPath, hotness := hotness + 1 }],
            avarage_size := recomputedAvg env (b.sstables.map bumpHotness ++
              [{ file_path := env.newPath, hotness := hotness + 1 }]) } :: post,
          { file_path := env.newPath, hotness := hotness })) ∨
    ((∀ x ∈ bm, matchesBucket x.avarage_size msize = false) ∧
      insertToAppropriateBucket env msize hotness bm =
        (bm ++ [freshBucket env], { file_path := env.newPath, hotness := 1 })) := by
  induction bm with
  | nil => right; simp [insertToAppropriateBucket]
  | cons b rest ih =>
      by_cases hb : matchesBucket b.avarage_size msize
      · left
        refine ⟨[], b, rest, rfl, by simp, hb, ?_⟩
        simp only [insertToAppropriateBucket, if_pos hb, List.map_append]
        simp [bumpHotness]
      · rcases ih with ⟨pre, bmatch, post, heq, hpre, hmatch, hres⟩ | ⟨hnone, hres⟩
        · left
          refine ⟨b :: pre, bmatch, post, by simp [heq], ?_, hmatch, ?_⟩
          · intro x hx
            rcases List.mem_cons.mp hx with hx | hx
            · simpa [hx] using hb
            · exact hpre x hx
          · simp only [insertToAppropriateBucket, if_neg hb, heq] at hres ⊢
            simp [hres]
        · right
          refine ⟨?_, ?_⟩
          · intro x hx
            rcases List.mem_cons.mp hx with hx | hx
            · simpa [hx] using hb
            · exact hnone x hx
          · simp only [insertToAppropriateBucket, if_neg hb]
            simp [hres]

theorem readChunk_zero (sizes : List Nat) : readChunk sizes 0 = (0, sizes) := by
  cases sizes <;> simp [readChunk]

theorem readChunk_le (sizes : List Nat) (budget M : Nat)
    (h : ∀ sz ∈ sizes, sz ≤ M) : (readChunk sizes budget).1 ≤ budget + M := by
  induction sizes generalizing budget with
  | nil => simp [readChunk]
  | cons sz rest ih =>
      by_cases hb : budget = 0
      · simp [readChunk, hb]
      · simp only [readChunk, if_neg hb]
        have hsz : sz ≤ M := h sz (by simp)
        by_cases hover : budget ≤ sz
        · have hmin : budget - min budget sz = 0 := by omega
          rw [hmin, readChunk_zero]
          simp
          omega
        · have hmin : budget - min budget sz = budget - sz := by omega
          rw [hmin]
          have := ih (budget - sz) (fun x hx => h x (by simp [hx]))
          simp
          omega

/-- The bucket created on the no-match path always satisfies the bucket
invariant: it is a singleton whose average equals its only member's size. -/
theorem freshBucket_invariant (env : InsertEnv) :
    bucketInvariant env.fsize (freshBucket env) = true := by
  simp [bucketInvariant, freshBucket, sstInBounds]
  omega

/-! ## Claim theorems -/

/-- C1 (code bug, documented in spec section 4.2): `delete_sstables` is meant
to leave `sstables[MAX_THRESHOLD..]` as the bucket's survivors, but the code
keeps `sstables[0..MAX_THRESHOLD]` — exactly the compacted and now unlinked
files.  On a bucket of 33 sstables whose first 32 were compacted, the
surviving members are the 32 deleted paths, not the one-element tail. -/
theorem c1_delete_sstables_keeps_compacted_slice :
    deleteSstables c1Bm c1Dels =
      some ([{ id := 5, avarage_size := 40, sstables := c1Paths.take 32 }],
        (c1Paths.take 32).map SSTablePath.file_path) ∧
    c1Paths.take 32 ≠ c1Paths.drop 32 := by
  refine ⟨by decide, by decide⟩

/-- C2 (code bug): `extract_buckets_to_compact` slices
`sstables[0..MAX_TRESHOLD]` for every bucket that passed the
`len >= MIN_TRESHOLD` filter, so a bucket holding between 4 and 31 sstables
makes the slice panic (modelled as `none`) instead of returning its first
`min(len, 32)` sstables; only buckets of at least 32 sstables survive the
call, and the delete list is populated only above 32. -/
theorem c2_extract_buckets_panics_below_max_threshold :
    extractBucketsToCompact c2Bm = none ∧
    extractBucketsToCompact c1Bm =
      some ([{ id := 5, avarage_size := 40, sstables := c1Paths.take 32 }],
        [(5, c1Paths.take 32)]) := by
  refine ⟨rfl, by decide⟩

/-- C3 (counterexample): inserting with hotness 5 into a matching bucket
leaves the newly appended member at hotness 6, not 5 — the hotness bump runs
over the list after the push, so it hits the new member too (only the
returned clone keeps hotness 5). -/
theorem c3_new_member_hotness_bumped :
    (insertToAppropriateBucket c3Env 100 5 c3Bm).1 =
      [{ id := 0, avarage_size := 100,
         sstables := [{ file_path := 3, hotness := 5 }, { file_path := 7, hotness := 6 }] }] ∧
    (insertToAppropriateBucket c3Env 100 5 c3Bm).2 =
      { file_path := 7, hotness := 5 } ∧
    ({ file_path := 7, hotness := 6 } : SSTablePath) ≠ { file_path := 7, hotness := 5 } := by
  refine ⟨by decide, by decide, by decide⟩

/-- C3 (amended): on the first matching bucket, the new `SSTablePath` is
appended with hotness `h` and then every member of the extended list —
including the new one — has its hotness incremented, so existing members
rise by exactly 1 and the new member ends at `h + 1`; the returned path
keeps hotness `h`; the average is recomputed as the integer mean of on-disk
sizes.  When no bucket matches, a fresh uuid bucket seeded at hotness 1 is
created. -/
theorem c3_insert_hotness_and_average_spec (env : InsertEnv) (msize hotness : Nat)
    (bm : List Bucket) :
    (∃ pre b post, bm = pre ++ b :: post ∧
      (∀ x ∈ pre, matchesBucket x.avarage_size msize = false) ∧
      matchesBucket b.avarage_size msize = true ∧
      insertToAppropriateBucket env msize hotness bm =
        (pre ++
          { b with
            sstables := b.sstables.map bumpHotness ++
              [{ file_path := env.newPath, hotness := hotness + 1 }],
            avarage_size := recomputedAvg env (b.sstables.map bumpHotness ++
              [{ file_path := env.newPath, hotness := hotness + 1 }]) } :: post,
          { file_path := env.newPath, hotness := hotness })) ∨
    ((∀ x ∈ bm, matchesBucket x.avarage_size msize = false) ∧
      insertToAppropriateBucket env msize hotness bm =
        (bm ++ [freshBucket env], { file_path := env.newPath, hotness := 1 })) :=
  insertToAppropriateBucket_spec env msize hotness bm

/-- C4 (counterexample): starting from an empty `BucketMap`, inserting a
100-byte SSTable and then five 60-byte SSTables — every insert accepted by
the match condition at its time — drives the recomputed average down to 66,
after which the 100-byte member violates `size < avg * BUCKET_HIGH`
(`200 < 198` fails) and is far above the small-file escape threshold. -/
theorem c4_bucket_invariant_violated_after_six_inserts :
    c4Final.all (bucketInvariant c4Fsize) = false := by
  decide

/-- C4 (amended): the size/average bound holds at insertion time, not as a
standing invariant: every insert either lands in the first bucket whose
pre-insert average satisfies the match condition against the memtable's
size, or appends a fresh singleton bucket that itself satisfies the bucket
invariant.  Later inserts recompute the average and may push earlier
members outside the bounds. -/
theorem c4_match_condition_at_insert_time (env : InsertEnv) (msize hotness : Nat)
    (bm : List Bucket) :
    (∃ pre b post, bm = pre ++ b :: post ∧
      (∀ x ∈ pre, matchesBucket x.avarage_size msize = false) ∧
      matchesBucket b.avarage_size msize = true ∧
      (insertToAppropriateBucket env msize hotness bm).1.length = bm.length) ∨
    ((insertToAppropriateBucket env msize hotness bm).1 = bm ++ [freshBucket env] ∧
      bucketInvariant env.fsize (freshBucket env) = true) := by
  rcases insertToAppropriateBucket_spec env msize hotness bm with
    ⟨pre, b, post, heq, hpre, hmatch, hres⟩ | ⟨hnone, hres⟩
  · left
    refine ⟨pre, b, post, heq, hpre, hmatch, ?_⟩
    rw [hres, heq]
    simp
  · right
    exact ⟨by rw [hres], freshBucket_invariant env⟩

/-- C5: `ValueLog::append` returns the pre-write value of the size counter
and advances the counter by exactly the serialized length
`16 + key_len + value_len + 1`; the serialized bytes are the little-endian
`key_len:u32`, `value_len:u32`, `created_at` millisecond timestamp,
`is_tombstone` byte, then the key and the value, in that order. -/
theorem c5_append_returns_prewrite_offset_and_advances_size (v : ValueLog)
    (key value : List Nat) (t : Int) (b : Bool) :
    ValueLog.append true v key value t b =
      Except.ok (v.size,
        { v with
          file := v.file ++ vlogSerialize key value t b,
          size := v.size + (16 + key.length + value.length + 1) }) ∧
    vlogSerialize key value t b =
      natToLE 4 key.length ++ natToLE 4 value.length ++ i64ToLE t ++
        [if b then 1 else 0] ++ key ++ value := by
  refine ⟨?_, rfl⟩
  simp [ValueLog.append, vlogSerialize_length]

/-- C6 (spec-modelled read side): after `append(k, v, t, false)` returns
offset `o`, `get(o)` recovers `(v, false)` — the serialized record written
at the former end of the file parses back to the appended value and
tombstone flag.  Requires the size counter to agree with the file length
and the key/value lengths to fit in a `u32`. -/
theorem c6_vlog_append_get_roundtrip (v : ValueLog) (key value : List Nat) (t : Int)
    (hsync : v.size = v.file.length) (hk : key.length < 2 ^ 32)
    (hv : value.length < 2 ^ 32) (off : Nat) (v2 : ValueLog)
    (happ : ValueLog.append true v key value t false = Except.ok (off, v2)) :
    vlogGet v2.file off = some (value, false) :=
  vlogGet_after_append v key value t false hsync hk hv off v2 happ

theorem c6_vlog_roundtrip_witness :
    vlogGet c6V2.file 0 = some ([2, 3], false) :=
  c6_vlog_append_get_roundtrip c6V [1] [2, 3] 42 rfl (by norm_num) (by norm_num)
    0 c6V2 rfl

/-- C7 (counterexample): the scan does not stop at a key larger than the
searched one.  In `c7File` the first record's key `[98]` exceeds the
searched key `[97]`, yet the read continues and returns the second record —
were "a key larger than the searched key is observed" a stopping condition,
the result would be `notFound`. -/
theorem c7_scan_passes_larger_key :
    sstGet c7File 0 [97] = SSTReadResult.found 9 11 false := by
  have h := sstScan_encodeEntries [c7e1, c7e2] [97] [] (by decide)
  have hfile : c7File.drop 0 = encodeSSTEntries [c7e1, c7e2] ++ [] := by
    simp [c7File]
  rw [sstGet, hfile, h]
  decide

/-- C7 (amended): the point read seeks to `start_offset` and linearly scans
records, returning `Some((value_offset, created_at, is_tombstone))` for the
first record whose key matches and `None` at a clean end-of-file reached at
a record boundary — it does not stop early at larger keys; a zero-byte read
in the middle of a record (here: a file ending right after a key-length
header announcing a nonempty key) is the distinct `UnexpectedEOF` error. -/
theorem c7_point_read_scans_to_match_or_eof (es : List SSTEntry) (key : List Nat)
    (hwf : ∀ e ∈ es, sstEntryWF e) :
    (sstGet (encodeSSTEntries es) 0 key =
      match es.find? (fun e => e.key == key) with
      | some e =>
          SSTReadResult.found (e.valOffset % 2 ^ 32) (e.createdAt % 2 ^ 64) e.isTombstone
      | none => SSTReadResult.notFound) ∧
    (∀ m, 0 < m % 2 ^ 32 → es.find? (fun e => e.key == key) = none →
      sstGet (encodeSSTEntries es ++ natToLE 4 m) 0 key = SSTReadResult.unexpectedEOF) := by
  constructor
  · have h := sstScan_encodeEntries es key [] hwf
    rw [List.append_nil] at h
    rw [sstGet, List.drop_zero, h]
    cases hf : es.find? (fun e => e.key == key) with
    | some e => rfl
    | none => exact sstScan_nil key
  · intro m hm hnone
    have h := sstScan_encodeEntries es key (natToLE 4 m) hwf
    rw [sstGet, List.drop_zero, h, hnone]
    exact sstScan_truncated_header key m hm

theorem c7_point_read_witness :
    sstGet (encodeSSTEntries [c7e1]) 0 [98] = SSTReadResult.found 5 7 false := by
  have h := (c7_point_read_scans_to_match_or_eof [c7e1] [98] (by decide)).1
  rw [h]
  decide

/-- C8 (spec-modelled): a GC cycle publishes its tail advance without
touching the observed tail offset — repeated cycles without a write keep it
unchanged — and once a write merges the published updates, the observed
tail has moved by the consumed chunk, which is at most `bytes_to_collect`
plus the maximum entry size (the last entry is read in full even when it
crosses the budget). -/
theorem c8_gc_tail_visible_only_after_write (budget M : Nat) (s : GCEngineState)
    (hpend : s.pendingTailAdvance = 0) (hM : ∀ sz ∈ s.entrySizes, sz ≤ M) :
    (gcCycle budget s).observedTail = s.observedTail ∧
    (writeOp (gcCycle budget s)).observedTail ≤ s.observedTail + budget + M := by
  refine ⟨rfl, ?_⟩
  have h := readChunk_le s.entrySizes budget M hM
  simp only [writeOp, gcCycle, hpend]
  simp
  omega

theorem c8_gc_witness :
    (gcCycle 100 c8S).observedTail = c8S.observedTail ∧
    (writeOp (gcCycle 100 c8S)).observedTail ≤ c8S.observedTail + 100 + 30 :=
  c8_gc_tail_visible_only_after_write 100 30 c8S rfl (by decide)

/-- C9: `Flusher::flush` on a memtable with an empty entry set returns the
explicit `FailedToInsertToBucket("Cannot flush an empty table")` error as
its very first step; the bucket map, bloom-filter list, key range and
read-only memtable registry all come through unchanged. -/
theorem c9_flush_rejects_empty_table (env : InsertEnv) (s : FlusherState)
    (table : InMemoryTable) (hempty : table.entries = []) :
    flush env s table = (s, some FlushError.failedToInsertToBucket) := by
  simp [flush, hempty]

theorem c9_flush_witness :
    flush c9Env c9State { entries := [], size := 0 } =
      (c9State, some FlushError.failedToInsertToBucket) :=
  c9_flush_rejects_empty_table c9Env c9State { entries := [], size := 0 } rfl

/-- C10: `ValueLog::append` discards the result of the underlying file
write (`let _ = ... write_all`), so even when that write fails the call
still returns `Ok` with the pre-write offset and still advances the size
counter by the serialized length, while the file content is left as it
was — the I/O failure is invisible to the caller. -/
theorem c10_append_ok_even_when_write_fails (v : ValueLog) (key value : List Nat)
    (t : Int) (b : Bool) :
    ValueLog.append false v key value t b =
      Except.ok (v.size,
        { v with size := v.size + (16 + key.length + value.length + 1) }) := by
  simp [ValueLog.append, vlogSerialize_length]

end Velarix
